import Mathlib

/-!
Verification of the warpcmap library (src/warpcmap/warpcmap.py) against its
specification.  The numeric code is embedded over the real numbers: the
regularized incomplete beta function is defined by its integral, and the
bracketed root solver is idealized to exact arithmetic.
-/

open MeasureTheory Set

noncomputable section

namespace Warpcmap

/-- RGBA colour quadruple: the value type produced by a colormap callable. -/
structure RGBA where
  r : ℝ
  g : ℝ
  b : ℝ
  a : ℝ

/-- Integrand of the incomplete beta integral: `t^(a-1) * (1-t)^(b-1)`. -/
def betaIntegrand (a b t : ℝ) : ℝ := t ^ (a - 1) * (1 - t) ^ (b - 1)

/-- The regularized incomplete beta function, `scipy.special.betainc(a, b, x)`,
embedded as its defining integral over the reals. -/
def betainc (a b x : ℝ) : ℝ :=
  (∫ t in (0:ℝ)..x, betaIntegrand a b t) / ∫ t in (0:ℝ)..1, betaIntegrand a b t

/-- Python-level failures that the library can raise.  `InvalidArgument`
models the ValueError raised by the z-range check, `NumericalFailure` the
ValueError raised by scipy when the root bracket has no sign change, and
`UnboundLocalError` the error raised by `return newmap` when the sampling
loop body never executed. -/
inductive PyError where
  | InvalidArgument : String → PyError
  | NumericalFailure : PyError
  | UnboundLocalError : PyError

open Classical in
/-- Models `scipy.optimize.root_scalar` with a `bracket=(a, b)` argument,
idealized over exact real arithmetic: the solver refuses a bracket whose
endpoint values have the same strict sign, and otherwise returns a root
inside the bracket when one exists. -/
def root_scalar (f : ℝ → ℝ) (a b : ℝ) : Option ℝ :=
  if 0 < f a * f b then none
  else if h : ∃ x, x ∈ Set.Icc a b ∧ f x = 0 then some h.choose else none

/-- The root-find objective of `warp_colormap`:
`objective(alpha) = betainc(alpha, beta, z) - 0.5`. -/
def objective (beta z alpha : ℝ) : ℝ := betainc alpha beta z - 0.5

/-- The root-finding step of `warp_colormap`:
`root_scalar(objective, bracket=(1e-10, 1e2))`. -/
def solve_alpha (z beta : ℝ) : Option ℝ :=
  root_scalar (objective beta z) 1e-10 1e2

/-- The n-th point of `np.linspace(0, 1, N)`: `n/(N-1)` for `N ≥ 2`,
and `0` for `N = 1` (for `N = 0` the array is empty and no point is read). -/
def linspace01 (N n : ℕ) : ℝ := if N ≤ 1 then 0 else (n : ℝ) / ((N : ℝ) - 1)

/-- The warped sample coordinate `x_n = betainc(alpha, beta, y_n)` computed
inside the sampling loop of `warp_colormap`. -/
def warpSamples (alpha beta : ℝ) (N n : ℕ) : ℝ :=
  betainc alpha beta (linspace01 N n)

/-- Embedding of `warp_colormap(basemap, z, beta, Nentries)` for a callable
`basemap`.  Mirrors the source order: validate `z`, solve for `alpha` with a
bracketed root-find, then build the `Nentries`-row table by sampling
`basemap` at the warped coordinates.  When `Nentries = 0` the Python loop
never assigns `newmap` and the final `return newmap` raises
`UnboundLocalError`. -/
def warp_colormap (basemap : ℝ → RGBA) (z beta : ℝ) (Nentries : ℕ) :
    Except PyError (List RGBA) :=
  if 0 < z ∧ z < 1 then
    match solve_alpha z beta with
    | none => Except.error PyError.NumericalFailure
    | some alpha =>
      if Nentries = 0 then Except.error PyError.UnboundLocalError
      else Except.ok ((List.range Nentries).map fun n =>
        basemap (warpSamples alpha beta Nentries n))
  else Except.error (PyError.InvalidArgument "z must be between 0 and 1")

/-- `numpy` minimum of a flat list of reals (`X.min()`); the empty case never
arises in the claims considered (numpy raises on an empty array). -/
def npMin : List ℝ → ℝ
  | [] => 0
  | x :: xs => xs.foldl min x

/-- `numpy` maximum of a flat list of reals (`X.max()`). -/
def npMax : List ℝ → ℝ
  | [] => 0
  | x :: xs => xs.foldl max x

/-- Row-major flattening of a 2D array, as numpy reductions see it. -/
def flatten2d (X : List (List ℝ)) : List ℝ := X.flatten

/-- Embedding of the data-dependent part of `wimshow`: default `vmin`/`vmax`
to the data minimum/maximum, default `vmid` to the midpoint of the range,
compute `z = (vmid - vmin)/(vmax - vmin)` and forward to `warp_colormap`.
The actual `ax.imshow` rendering call is an external collaborator and is not
modelled; the warped table (or the failure) it would receive is returned. -/
def wimshow (X : List (List ℝ)) (cmap : ℝ → RGBA)
    (vmin vmax vmid : Option ℝ) (beta : ℝ) (Nentries : ℕ) :
    Except PyError (List RGBA) :=
  let vmin' := vmin.getD (npMin (flatten2d X))
  let vmax' := vmax.getD (npMax (flatten2d X))
  let vmid' := vmid.getD ((vmin' + vmax') / 2)
  warp_colormap cmap ((vmid' - vmin') / (vmax' - vmin')) beta Nentries

/-- Embedding of the data-dependent part of `wpcolormesh` (single positional
argument form, `C`): identical derivation of `z` followed by forwarding to
`warp_colormap`; the `ax.pcolormesh` call is external. -/
def wpcolormesh (C : List (List ℝ)) (cmap : ℝ → RGBA)
    (vmin vmax vmid : Option ℝ) (beta : ℝ) (Nentries : ℕ) :
    Except PyError (List RGBA) :=
  let vmin' := vmin.getD (npMin (flatten2d C))
  let vmax' := vmax.getD (npMax (flatten2d C))
  let vmid' := vmid.getD ((vmin' + vmax') / 2)
  warp_colormap cmap ((vmid' - vmin') / (vmax' - vmin')) beta Nentries

/-- Embedding of the data-dependent part of `wpcolor` (single positional
argument form, `C`): identical derivation of `z` followed by forwarding to
`warp_colormap`; the `ax.pcolor` call is external. -/
def wpcolor (C : List (List ℝ)) (cmap : ℝ → RGBA)
    (vmin vmax vmid : Option ℝ) (beta : ℝ) (Nentries : ℕ) :
    Except PyError (List RGBA) :=
  let vmin' := vmin.getD (npMin (flatten2d C))
  let vmax' := vmax.getD (npMax (flatten2d C))
  let vmid' := vmid.getD ((vmin' + vmax') / 2)
  warp_colormap cmap ((vmid' - vmin') / (vmax' - vmin')) beta Nentries

/-- The grayscale ramp colormap used as a concrete basemap in scenarios. -/
def grayMap : ℝ → RGBA := fun x => ⟨x, x, x, 1⟩

/-- The beta integrand is nonnegative on the unit interval. -/
lemma betaIntegrand_nonneg (a b : ℝ) {t : ℝ} (h0 : 0 ≤ t) (h1 : t ≤ 1) :
    0 ≤ betaIntegrand a b t :=
  mul_nonneg (Real.rpow_nonneg h0 _) (Real.rpow_nonneg (by linarith) _)

/-- The beta integrand is positive on the open unit interval. -/
lemma betaIntegrand_pos (a b : ℝ) {t : ℝ} (h0 : 0 < t) (h1 : t < 1) :
    0 < betaIntegrand a b t :=
  mul_pos (Real.rpow_pos_of_pos h0 _) (Real.rpow_pos_of_pos (by linarith) _)

/-- Integrability of the beta integrand on the left half of the unit interval. -/
lemma betaIntegrand_integrable_left {a : ℝ} (ha : 0 < a) (b : ℝ) :
    IntervalIntegrable (betaIntegrand a b) volume 0 (1/2) := by
  have h1 : IntervalIntegrable (fun t : ℝ => t ^ (a - 1)) volume 0 (1/2) :=
    intervalIntegral.intervalIntegrable_rpow' (by linarith)
  have h2 : ContinuousOn (fun t : ℝ => (1 - t) ^ (b - 1)) (Set.uIcc (0:ℝ) (1/2)) := by
    apply ContinuousOn.rpow_const ((continuous_const.sub continuous_id).continuousOn)
    intro t ht
    rw [Set.uIcc_of_le (by norm_num : (0:ℝ) ≤ 1/2)] at ht
    exact Or.inl (sub_ne_zero.mpr (by linarith [ht.2] : t < 1).ne')
  exact h1.mul_continuousOn h2

/-- Integrability of the beta integrand on the right half of the unit interval. -/
lemma betaIntegrand_integrable_right (a : ℝ) {b : ℝ} (hb : 0 < b) :
    IntervalIntegrable (betaIntegrand a b) volume (1/2) 1 := by
  have h1 : IntervalIntegrable (fun t : ℝ => t ^ (b - 1)) volume 0 (1/2) :=
    intervalIntegral.intervalIntegrable_rpow' (by linarith)
  have h1' := h1.comp_sub_left 1
  norm_num at h1'
  have h2 : ContinuousOn (fun t : ℝ => t ^ (a - 1)) (Set.uIcc (1/2:ℝ) 1) := by
    apply ContinuousOn.rpow_const continuousOn_id
    intro t ht
    rw [Set.uIcc_of_le (by norm_num : (1/2:ℝ) ≤ 1)] at ht
    exact Or.inl (by linarith [ht.1] : t ≠ 0)
  exact h1'.symm.continuousOn_mul h2

/-- Integrability of the beta integrand on the whole unit interval. -/
lemma betaIntegrand_integrable {a b : ℝ} (ha : 0 < a) (hb : 0 < b) :
    IntervalIntegrable (betaIntegrand a b) volume 0 1 :=
  (betaIntegrand_integrable_left ha b).trans (betaIntegrand_integrable_right a hb)

/-- Integrability of the beta integrand on any subinterval of the unit interval. -/
lemma betaIntegrand_integrable_sub {a b : ℝ} (ha : 0 < a) (hb : 0 < b)
    {x y : ℝ} (hx : x ∈ Set.Icc (0:ℝ) 1) (hy : y ∈ Set.Icc (0:ℝ) 1) :
    IntervalIntegrable (betaIntegrand a b) volume x y := by
  apply (betaIntegrand_integrable ha hb).mono_set
  apply Set.uIcc_subset_uIcc
  · rwa [Set.uIcc_of_le (zero_le_one)]
  · rwa [Set.uIcc_of_le (zero_le_one)]

/-- The complete beta integral is positive for positive parameters. -/
lemma betaDenom_pos {a b : ℝ} (ha : 0 < a) (hb : 0 < b) :
    0 < ∫ t in (0:ℝ)..1, betaIntegrand a b t :=
  intervalIntegral.intervalIntegral_pos_of_pos_on (betaIntegrand_integrable ha hb)
    (fun t ht => betaIntegrand_pos a b ht.1 ht.2) (by norm_num)

/-- The regularized incomplete beta function is monotone in its argument on
the unit interval. -/
lemma betainc_mono {a b : ℝ} (ha : 0 < a) (hb : 0 < b) {x y : ℝ}
    (hx : 0 ≤ x) (hxy : x ≤ y) (hy : y ≤ 1) :
    betainc a b x ≤ betainc a b y := by
  have hd := betaDenom_pos ha hb
  have hnum : (∫ t in (0:ℝ)..x, betaIntegrand a b t) ≤
      ∫ t in (0:ℝ)..y, betaIntegrand a b t := by
    apply intervalIntegral.integral_mono_interval le_rfl hx hxy
    · refine (MeasureTheory.ae_restrict_iff' measurableSet_Ioc).mpr
        (MeasureTheory.ae_of_all _ ?_)
      intro t ht
      exact betaIntegrand_nonneg a b ht.1.le (ht.2.trans hy)
    · exact betaIntegrand_integrable_sub ha hb
        (Set.mem_Icc.mpr ⟨le_rfl, zero_le_one⟩)
        (Set.mem_Icc.mpr ⟨hx.trans hxy, hy⟩)
  unfold betainc
  exact (div_le_div_iff_of_pos_right hd).mpr hnum

/-- The regularized incomplete beta function vanishes at 0. -/
lemma betainc_zero (a b : ℝ) : betainc a b 0 = 0 := by
  unfold betainc
  rw [intervalIntegral.integral_same, zero_div]

/-- The regularized incomplete beta function equals 1 at 1 for positive
parameters. -/
lemma betainc_one {a b : ℝ} (ha : 0 < a) (hb : 0 < b) : betainc a b 1 = 1 :=
  div_self (betaDenom_pos ha hb).ne'

/-- Closed form of the regularized incomplete beta function at `b = 1`. -/
lemma betainc_beta_one {a : ℝ} (ha : 0 < a) (x : ℝ) : betainc a 1 x = x ^ a := by
  have hfun : ∀ y : ℝ, betaIntegrand a 1 y = y ^ (a - 1) := by
    intro y
    unfold betaIntegrand
    rw [sub_self, Real.rpow_zero, mul_one]
  have ha1 : a - 1 + 1 = a := by ring
  have hint : ∀ c : ℝ, (∫ t in (0:ℝ)..c, betaIntegrand a 1 t) = c ^ a / a := by
    intro c
    rw [intervalIntegral.integral_congr (fun t _ => hfun t),
      integral_rpow (Or.inl (by linarith : (-1:ℝ) < a - 1)), ha1,
      Real.zero_rpow ha.ne', sub_zero]
  unfold betainc
  rw [hint, hint, Real.one_rpow]
  field_simp

/-- The regularized incomplete beta function with both parameters 1 is the
identity. -/
lemma betainc_one_one (x : ℝ) : betainc 1 1 x = x := by
  rw [betainc_beta_one one_pos, Real.rpow_one]

/-- A successful bracketed root-find returns a root inside the bracket. -/
lemma root_scalar_some {f : ℝ → ℝ} {a b x : ℝ} (h : root_scalar f a b = some x) :
    x ∈ Set.Icc a b ∧ f x = 0 := by
  unfold root_scalar at h
  split at h
  · exact absurd h (by simp)
  · split at h
    · rename_i hex
      obtain ⟨hm, hf⟩ := hex.choose_spec
      injection h with h
      rw [← h]
      exact ⟨hm, hf⟩
    · exact absurd h (by simp)

/-- The bracketed root solver returns the root when the bracket has a sign
change and the root is unique in the bracket. -/
lemma root_scalar_eq_some {f : ℝ → ℝ} {a b x : ℝ} (hsign : ¬ 0 < f a * f b)
    (hmem : x ∈ Set.Icc a b) (hroot : f x = 0)
    (huniq : ∀ y, y ∈ Set.Icc a b → f y = 0 → y = x) :
    root_scalar f a b = some x := by
  have hex : ∃ y, y ∈ Set.Icc a b ∧ f y = 0 := ⟨x, hmem, hroot⟩
  unfold root_scalar
  rw [if_neg hsign, dif_pos hex]
  exact congrArg some (huniq hex.choose hex.choose_spec.1 hex.choose_spec.2)

/-- The bracketed root solver fails when both bracket endpoints have the same
strict sign. -/
lemma root_scalar_same_sign {f : ℝ → ℝ} {a b : ℝ} (hsign : 0 < f a * f b) :
    root_scalar f a b = none := by
  unfold root_scalar
  rw [if_pos hsign]

/-- Exponentiation with a fixed base strictly between 0 and 1 is injective in
the exponent. -/
lemma rpow_base_lt_one_inj {x : ℝ} (hx0 : 0 < x) (hx1 : x < 1) {u v : ℝ}
    (h : x ^ u = x ^ v) : u = v := by
  by_contra hne
  rcases lt_or_gt_of_ne hne with hlt | hlt
  · exact absurd h (Real.rpow_lt_rpow_of_exponent_gt hx0 hx1 hlt).ne'
  · exact absurd h (Real.rpow_lt_rpow_of_exponent_gt hx0 hx1 hlt).ne

/-- For `z = 1/2` and `beta = 1` the root-find yields exactly `alpha = 1`. -/
lemma solve_alpha_half_one : solve_alpha (1/2) 1 = some 1 := by
  unfold solve_alpha
  have hobj : ∀ alpha : ℝ, 0 < alpha →
      objective 1 (1/2) alpha = (1/2 : ℝ) ^ alpha - 0.5 := by
    intro alpha halpha
    unfold objective
    rw [betainc_beta_one halpha]
  have h1 : 0 < objective 1 (1/2) 1e-10 := by
    rw [hobj _ (by norm_num)]
    have hlt : (1/2 : ℝ) ^ (1:ℝ) < (1/2 : ℝ) ^ (1e-10 : ℝ) :=
      Real.rpow_lt_rpow_of_exponent_gt (by norm_num) (by norm_num) (by norm_num)
    rw [Real.rpow_one] at hlt
    have h05 : (0.5 : ℝ) = 1/2 := by norm_num
    linarith
  have h2 : objective 1 (1/2) 1e2 < 0 := by
    rw [hobj _ (by norm_num)]
    have hlt : (1/2 : ℝ) ^ (1e2 : ℝ) < (1/2 : ℝ) ^ (1 : ℝ) :=
      Real.rpow_lt_rpow_of_exponent_gt (by norm_num) (by norm_num) (by norm_num)
    rw [Real.rpow_one] at hlt
    have h05 : (0.5 : ℝ) = 1/2 := by norm_num
    linarith
  apply root_scalar_eq_some
  · exact not_lt.mpr (mul_nonpos_of_nonneg_of_nonpos h1.le h2.le)
  · constructor <;> norm_num
  · rw [hobj 1 one_pos, Real.rpow_one]
    norm_num
  · intro y hy hf
    have hypos : 0 < y := lt_of_lt_of_le (by norm_num) hy.1
    rw [hobj y hypos] at hf
    have heq : (1/2 : ℝ) ^ y = (1/2 : ℝ) ^ (1:ℝ) := by
      rw [Real.rpow_one]
      have h05 : (0.5 : ℝ) = 1/2 := by norm_num
      linarith
    exact rpow_base_lt_one_inj (by norm_num) (by norm_num) heq

/-- Unfolding of `warp_colormap` on the success path: valid `z`, successful
root-find, at least one table entry. -/
lemma warp_colormap_ok {basemap : ℝ → RGBA} {z beta alpha : ℝ} {N : ℕ}
    (hz0 : 0 < z) (hz1 : z < 1) (hsolve : solve_alpha z beta = some alpha)
    (hN : N ≠ 0) :
    warp_colormap basemap z beta N =
      Except.ok ((List.range N).map fun n =>
        basemap (warpSamples alpha beta N n)) := by
  unfold warp_colormap
  rw [hsolve, if_pos ⟨hz0, hz1⟩]
  exact if_neg hN

/-- C1: for every z in (0,1) and beta > 0 for which the root-find succeeds,
`solve_alpha` returns an alpha > 0 lying in the bracket [1e-10, 1e2] with
|betainc(alpha, beta, z) - 0.5| below the 1e-6 tolerance. -/
theorem C1_solve_alpha_correct (z beta alpha : ℝ) (hz0 : 0 < z) (hz1 : z < 1)
    (hbeta : 0 < beta) (hsolve : solve_alpha z beta = some alpha) :
    0 < alpha ∧ (1e-10 : ℝ) ≤ alpha ∧ alpha ≤ 1e2 ∧
      |betainc alpha beta z - 0.5| < 1e-6 := by
  unfold solve_alpha at hsolve
  obtain ⟨hmem, hroot⟩ := root_scalar_some hsolve
  have h10 : (1e-10 : ℝ) ≤ alpha := hmem.1
  refine ⟨lt_of_lt_of_le (by norm_num) h10, h10, hmem.2, ?_⟩
  unfold objective at hroot
  rw [sub_eq_zero] at hroot
  rw [hroot]
  norm_num

/-- Witness for C1 at z = 1/2, beta = 1, where the solved alpha is 1. -/
theorem C1_solve_alpha_correct_witness :
    0 < (1:ℝ) ∧ (1e-10 : ℝ) ≤ (1:ℝ) ∧ (1:ℝ) ≤ 1e2 ∧
      |betainc 1 1 (1/2) - 0.5| < 1e-6 :=
  C1_solve_alpha_correct (1/2) 1 1 (by norm_num) (by norm_num) (by norm_num)
    solve_alpha_half_one

/-- C2: for a callable basemap, z in (0,1), beta > 0 and N ≥ 2, the returned
table has exactly N entries and entry n is
basemap(betainc(alpha, beta, n/(N-1))) with alpha the solved root. -/
theorem C2_table_shape (basemap : ℝ → RGBA) (z beta alpha : ℝ) (N : ℕ)
    (hz0 : 0 < z) (hz1 : z < 1) (hbeta : 0 < beta) (hN : 2 ≤ N)
    (hsolve : solve_alpha z beta = some alpha) :
    warp_colormap basemap z beta N =
      Except.ok ((List.range N).map fun n : ℕ =>
        basemap (betainc alpha beta ((n : ℝ) / ((N : ℝ) - 1)))) ∧
    ((List.range N).map fun n : ℕ =>
        basemap (betainc alpha beta ((n : ℝ) / ((N : ℝ) - 1)))).length = N := by
  constructor
  · rw [warp_colormap_ok hz0 hz1 hsolve (by omega)]
    have hN1 : ¬ N ≤ 1 := by omega
    simp only [warpSamples, linspace01, if_neg hN1]
  · simp

/-- Witness for C2 at z = 1/2, beta = 1, N = 2. -/
theorem C2_table_shape_witness :
    warp_colormap grayMap (1/2) 1 2 =
      Except.ok ((List.range 2).map fun n : ℕ =>
        grayMap (betainc 1 1 ((n : ℝ) / (((2:ℕ) : ℝ) - 1)))) ∧
    ((List.range 2).map fun n : ℕ =>
        grayMap (betainc 1 1 ((n : ℝ) / (((2:ℕ) : ℝ) - 1)))).length = 2 :=
  C2_table_shape grayMap (1/2) 1 1 2 (by norm_num) (by norm_num) (by norm_num)
    (by norm_num) solve_alpha_half_one

/-- C3: for every alpha > 0 and beta > 0 the warped sample coordinates
x_0, ..., x_{N-1} are non-decreasing, so the table preserves the base
colormap's ordering. -/
theorem C3_samples_monotone (alpha beta : ℝ) (N n m : ℕ) (ha : 0 < alpha)
    (hb : 0 < beta) (hnm : n ≤ m) (hm : m < N) :
    warpSamples alpha beta N n ≤ warpSamples alpha beta N m := by
  unfold warpSamples linspace01
  by_cases hN : N ≤ 1
  · simp only [if_pos hN]
    exact le_rfl
  · simp only [if_neg hN]
    have hden : (0:ℝ) < (N:ℝ) - 1 := by
      have h2 : (2:ℝ) ≤ (N:ℝ) := by exact_mod_cast (by omega : 2 ≤ N)
      linarith
    have hnm' : (n:ℝ) ≤ (m:ℝ) := by exact_mod_cast hnm
    apply betainc_mono ha hb
    · positivity
    · exact (div_le_div_iff_of_pos_right hden).mpr hnm'
    · rw [div_le_one hden]
      have hm1 : (m:ℝ) + 1 ≤ (N:ℝ) := by exact_mod_cast hm
      linarith

/-- Witness for C3 at alpha = beta = 1, N = 3, n = 0, m = 2. -/
theorem C3_samples_monotone_witness :
    warpSamples 1 1 3 0 ≤ warpSamples 1 1 3 2 :=
  C3_samples_monotone 1 1 3 0 2 one_pos one_pos (by norm_num) (by norm_num)

/-- C4: warp_colormap fails with the InvalidArgument message
"z must be between 0 and 1" exactly when z lies outside (0,1): every such z
is rejected regardless of basemap, beta and N, and every z inside (0,1)
passes the check (no InvalidArgument failure is possible). -/
theorem C4_z_check (basemap : ℝ → RGBA) (z beta : ℝ) (N : ℕ) :
    (¬ (0 < z ∧ z < 1) → warp_colormap basemap z beta N =
        Except.error (PyError.InvalidArgument "z must be between 0 and 1")) ∧
    ((0 < z ∧ z < 1) → ∀ msg, warp_colormap basemap z beta N ≠
        Except.error (PyError.InvalidArgument msg)) := by
  constructor
  · intro hz
    unfold warp_colormap
    rw [if_neg hz]
  · intro hz msg
    unfold warp_colormap
    rw [if_pos hz]
    cases hsolve : solve_alpha z beta with
    | none => simp
    | some alpha =>
      by_cases hN : N = 0
      · simp [hN]
      · simp [hN]

/-- Witness for C4 at z = 0, 1, 3/2 (rejected) and z = 1/2 (accepted). -/
theorem C4_z_check_witness :
    warp_colormap grayMap 0 1 3 =
      Except.error (PyError.InvalidArgument "z must be between 0 and 1") ∧
    warp_colormap grayMap 1 1 3 =
      Except.error (PyError.InvalidArgument "z must be between 0 and 1") ∧
    warp_colormap grayMap (3/2) 1 3 =
      Except.error (PyError.InvalidArgument "z must be between 0 and 1") ∧
    warp_colormap grayMap (1/2) 1 3 ≠
      Except.error (PyError.InvalidArgument "z must be between 0 and 1") :=
  ⟨(C4_z_check grayMap 0 1 3).1 (by norm_num),
   (C4_z_check grayMap 1 1 3).1 (by norm_num),
   (C4_z_check grayMap (3/2) 1 3).1 (by norm_num),
   (C4_z_check grayMap (1/2) 1 3).2 ⟨by norm_num, by norm_num⟩ _⟩

/-- C5: the first and last warped coordinates are exactly
betainc(alpha, beta, 0) = 0 and betainc(alpha, beta, 1) = 1. -/
theorem C5_endpoints (alpha beta : ℝ) (N : ℕ) (ha : 0 < alpha) (hb : 0 < beta)
    (hN : 2 ≤ N) :
    warpSamples alpha beta N 0 = betainc alpha beta 0 ∧
    warpSamples alpha beta N 0 = 0 ∧
    warpSamples alpha beta N (N - 1) = betainc alpha beta 1 ∧
    warpSamples alpha beta N (N - 1) = 1 := by
  have hN1 : ¬ N ≤ 1 := by omega
  have hden : ((N:ℝ) - 1) ≠ 0 := by
    have h2 : (2:ℝ) ≤ (N:ℝ) := by exact_mod_cast hN
    linarith
  have h0 : linspace01 N 0 = 0 := by
    unfold linspace01
    rw [if_neg hN1]
    simp
  have h1 : linspace01 N (N - 1) = 1 := by
    unfold linspace01
    rw [if_neg hN1]
    rw [Nat.cast_sub (by omega : 1 ≤ N), Nat.cast_one, div_self hden]
  refine ⟨?_, ?_, ?_, ?_⟩
  · unfold warpSamples
    rw [h0]
  · unfold warpSamples
    rw [h0, betainc_zero]
  · unfold warpSamples
    rw [h1]
  · unfold warpSamples
    rw [h1, betainc_one ha hb]

/-- Witness for C5 at alpha = beta = 1, N = 5. -/
theorem C5_endpoints_witness :
    warpSamples 1 1 5 0 = betainc 1 1 0 ∧
    warpSamples 1 1 5 0 = 0 ∧
    warpSamples 1 1 5 (5 - 1) = betainc 1 1 1 ∧
    warpSamples 1 1 5 (5 - 1) = 1 :=
  C5_endpoints 1 1 5 one_pos one_pos (by norm_num)

/-- C6: for z = 0.5 and beta = 1 the warp is the identity resampling: the
solved alpha is exactly 1, every warped coordinate equals the even sample
point, and the table is the basemap evaluated at N evenly spaced points. -/
theorem C6_identity (basemap : ℝ → RGBA) (N : ℕ) (hN : 2 ≤ N) :
    solve_alpha (1/2) 1 = some 1 ∧
    (∀ n : ℕ, warpSamples 1 1 N n = linspace01 N n) ∧
    warp_colormap basemap (1/2) 1 N =
      Except.ok ((List.range N).map fun n : ℕ => basemap (linspace01 N n)) := by
  refine ⟨solve_alpha_half_one, fun n => ?_, ?_⟩
  · unfold warpSamples
    exact betainc_one_one _
  · rw [warp_colormap_ok (by norm_num) (by norm_num) solve_alpha_half_one
      (by omega)]
    simp only [warpSamples, betainc_one_one]

/-- Witness for C6 at N = 3 with the grayscale basemap. -/
theorem C6_identity_witness :
    solve_alpha (1/2) 1 = some 1 ∧
    (∀ n : ℕ, warpSamples 1 1 3 n = linspace01 3 n) ∧
    warp_colormap grayMap (1/2) 1 3 =
      Except.ok ((List.range 3).map fun n : ℕ => grayMap (linspace01 3 n)) :=
  C6_identity grayMap 3 (by norm_num)

/-- C7: when the root-find objective has the same strict sign at both ends
of the bracket [1e-10, 1e2], warp_colormap fails with NumericalFailure and
never returns a table. -/
theorem C7_no_sign_change (basemap : ℝ → RGBA) (z beta : ℝ) (N : ℕ)
    (hz0 : 0 < z) (hz1 : z < 1)
    (hsign : 0 < objective beta z 1e-10 * objective beta z 1e2) :
    warp_colormap basemap z beta N = Except.error PyError.NumericalFailure := by
  have hsolve : solve_alpha z beta = none := by
    unfold solve_alpha
    exact root_scalar_same_sign hsign
  unfold warp_colormap
  rw [hsolve, if_pos ⟨hz0, hz1⟩]

/-- At the extreme value z = (1/2)^(2*10^10) with beta = 1 the objective is
negative at both bracket ends, so the bracket has no sign change. -/
lemma extreme_same_sign :
    0 < objective 1 ((1/2 : ℝ) ^ (20000000000 : ℕ)) 1e-10 *
        objective 1 ((1/2 : ℝ) ^ (20000000000 : ℕ)) 1e2 := by
  have hzr : ∀ r : ℝ, ((1/2 : ℝ) ^ (20000000000 : ℕ)) ^ r
      = (1/2 : ℝ) ^ ((20000000000 : ℝ) * r) := by
    intro r
    rw [← Real.rpow_natCast (1/2 : ℝ) 20000000000,
      ← Real.rpow_mul (by norm_num : (0:ℝ) ≤ 1/2)]
    norm_cast
  have hA : objective 1 ((1/2 : ℝ) ^ (20000000000 : ℕ)) 1e-10 < 0 := by
    unfold objective
    rw [betainc_beta_one (by norm_num : (0:ℝ) < 1e-10), hzr]
    have he : (20000000000 : ℝ) * (1e-10 : ℝ) = 2 := by norm_num
    rw [he, Real.rpow_two]
    norm_num
  have hB : objective 1 ((1/2 : ℝ) ^ (20000000000 : ℕ)) 1e2 < 0 := by
    unfold objective
    rw [betainc_beta_one (by norm_num : (0:ℝ) < 1e2), hzr]
    have hlt : (1/2 : ℝ) ^ ((20000000000 : ℝ) * (1e2 : ℝ)) < (1/2 : ℝ) ^ (1 : ℝ) :=
      Real.rpow_lt_rpow_of_exponent_gt (by norm_num) (by norm_num) (by norm_num)
    rw [Real.rpow_one] at hlt
    exact sub_neg.mpr (hlt.trans_le (by norm_num))
  exact mul_pos_of_neg_of_neg hA hB

/-- Witness for C7 at the extreme z = (1/2)^(2*10^10) with beta = 1. -/
theorem C7_no_sign_change_witness :
    warp_colormap grayMap ((1/2 : ℝ) ^ (20000000000 : ℕ)) 1 256 =
      Except.error PyError.NumericalFailure :=
  C7_no_sign_change grayMap _ 1 256 (pow_pos (by norm_num) _)
    (pow_lt_one₀ (by norm_num) (by norm_num) (by norm_num)) extreme_same_sign

/-- C8 counterexample: with N = 1 (which is < 2) warp_colormap does not fail
with InvalidArgument; it returns a degenerate one-entry table. -/
theorem C8_counterexample :
    warp_colormap grayMap (1/2) 1 1 = Except.ok [grayMap 0] := by
  rw [warp_colormap_ok (by norm_num) (by norm_num) solve_alpha_half_one
    one_ne_zero]
  have h : warpSamples 1 1 1 0 = 0 := by
    unfold warpSamples linspace01
    rw [if_pos (le_refl 1)]
    exact betainc_zero 1 1
  have hr : List.range 1 = [0] := rfl
  simp [h, hr]

/-- C8 amended: warp_colormap performs no validation of Nentries.  When the
z check and the root-find pass, N = 1 yields a degenerate one-entry table
rather than an InvalidArgument failure, and N = 0 fails with
UnboundLocalError (the local `newmap` is never assigned), not
InvalidArgument. -/
theorem C8_no_N_validation (basemap : ℝ → RGBA) (z beta alpha : ℝ)
    (hz0 : 0 < z) (hz1 : z < 1) (hsolve : solve_alpha z beta = some alpha) :
    warp_colormap basemap z beta 1 =
      Except.ok [basemap (betainc alpha beta 0)] ∧
    warp_colormap basemap z beta 0 =
      Except.error PyError.UnboundLocalError := by
  constructor
  · rw [warp_colormap_ok hz0 hz1 hsolve one_ne_zero]
    have h : warpSamples alpha beta 1 0 = betainc alpha beta 0 := by
      unfold warpSamples linspace01
      rw [if_pos (le_refl 1)]
    have hr : List.range 1 = [0] := rfl
    simp [h, hr]
  · unfold warp_colormap
    rw [hsolve, if_pos ⟨hz0, hz1⟩]
    exact if_pos rfl

/-- Witness for C8 amended at z = 1/2, beta = 1. -/
theorem C8_no_N_validation_witness :
    warp_colormap grayMap (1/2) 1 1 = Except.ok [grayMap (betainc 1 1 0)] ∧
    warp_colormap grayMap (1/2) 1 0 = Except.error PyError.UnboundLocalError :=
  C8_no_N_validation grayMap (1/2) 1 1 (by norm_num) (by norm_num)
    solve_alpha_half_one

/-- C9: all three adapter wrappers compute z = (vmid - vmin)/(vmax - vmin)
and forward it to warp_colormap; when vmin, vmax and vmid are left to their
defaults (the data minimum, the data maximum, and the midpoint of the range)
and the data range is nondegenerate, the forwarded z is exactly 1/2. -/
theorem C9_adapters (X : List (List ℝ)) (cmap : ℝ → RGBA)
    (vmi vma vmd beta : ℝ) (N : ℕ) :
    (wimshow X cmap (some vmi) (some vma) (some vmd) beta N =
        warp_colormap cmap ((vmd - vmi) / (vma - vmi)) beta N ∧
      wpcolormesh X cmap (some vmi) (some vma) (some vmd) beta N =
        warp_colormap cmap ((vmd - vmi) / (vma - vmi)) beta N ∧
      wpcolor X cmap (some vmi) (some vma) (some vmd) beta N =
        warp_colormap cmap ((vmd - vmi) / (vma - vmi)) beta N) ∧
    (npMin (flatten2d X) < npMax (flatten2d X) →
      ((npMin (flatten2d X) + npMax (flatten2d X)) / 2 - npMin (flatten2d X)) /
          (npMax (flatten2d X) - npMin (flatten2d X)) = 1/2 ∧
      wimshow X cmap none none none beta N =
        warp_colormap cmap (1/2) beta N ∧
      wpcolormesh X cmap none none none beta N =
        warp_colormap cmap (1/2) beta N ∧
      wpcolor X cmap none none none beta N =
        warp_colormap cmap (1/2) beta N) := by
  constructor
  · exact ⟨rfl, rfl, rfl⟩
  · intro hlt
    have hne : npMax (flatten2d X) - npMin (flatten2d X) ≠ 0 :=
      sub_ne_zero.mpr hlt.ne'
    have hz : ((npMin (flatten2d X) + npMax (flatten2d X)) / 2 -
        npMin (flatten2d X)) /
        (npMax (flatten2d X) - npMin (flatten2d X)) = 1/2 := by
      field_simp
      ring
    refine ⟨hz, ?_, ?_, ?_⟩
    · simp only [wimshow, Option.getD_none]
      rw [hz]
    · simp only [wpcolormesh, Option.getD_none]
      rw [hz]
    · simp only [wpcolor, Option.getD_none]
      rw [hz]

/-- Witness for C9 on the data [[0, 1]] with explicit and default limits. -/
theorem C9_adapters_witness :
    wimshow [[0, 1]] grayMap (some 0) (some 1) (some (1/2)) 1 7 =
      warp_colormap grayMap ((1/2 - 0) / (1 - 0)) 1 7 ∧
    wimshow [[0, 1]] grayMap none none none 1 7 =
      warp_colormap grayMap (1/2) 1 7 := by
  have hmin : npMin (flatten2d [[0, 1]]) = 0 := by
    norm_num [npMin, flatten2d, min_def]
  have hmax : npMax (flatten2d [[0, 1]]) = 1 := by
    norm_num [npMax, flatten2d, max_def]
  constructor
  · exact (C9_adapters [[0, 1]] grayMap 0 1 (1/2) 1 7).1.1
  · exact ((C9_adapters [[0, 1]] grayMap 0 1 (1/2) 1 7).2
      (by rw [hmin, hmax]; norm_num)).2.1

/-- Folding min over a list of copies of c starting from c yields c. -/
lemma foldl_min_const (c : ℝ) (l : List ℝ) (h : ∀ v ∈ l, v = c) :
    l.foldl min c = c := by
  induction l with
  | nil => rfl
  | cons x xs ih =>
    have hx : x = c := h x (List.mem_cons_self x xs)
    simp only [List.foldl_cons, hx, min_self]
    exact ih (fun v hv => h v (List.mem_cons_of_mem x hv))

/-- Folding max over a list of copies of c starting from c yields c. -/
lemma foldl_max_const (c : ℝ) (l : List ℝ) (h : ∀ v ∈ l, v = c) :
    l.foldl max c = c := by
  induction l with
  | nil => rfl
  | cons x xs ih =>
    have hx : x = c := h x (List.mem_cons_self x xs)
    simp only [List.foldl_cons, hx, max_self]
    exact ih (fun v hv => h v (List.mem_cons_of_mem x hv))

/-- The numpy minimum of a nonempty constant list is the constant. -/
lemma npMin_const (c : ℝ) (l : List ℝ) (hne : l ≠ []) (h : ∀ v ∈ l, v = c) :
    npMin l = c := by
  cases l with
  | nil => exact absurd rfl hne
  | cons x xs =>
    unfold npMin
    rw [h x (List.mem_cons_self x xs)]
    exact foldl_min_const c xs (fun v hv => h v (List.mem_cons_of_mem x hv))

/-- The numpy maximum of a nonempty constant list is the constant. -/
lemma npMax_const (c : ℝ) (l : List ℝ) (hne : l ≠ []) (h : ∀ v ∈ l, v = c) :
    npMax l = c := by
  cases l with
  | nil => exact absurd rfl hne
  | cons x xs =>
    unfold npMax
    rw [h x (List.mem_cons_self x xs)]
    exact foldl_max_const c xs (fun v hv => h v (List.mem_cons_of_mem x hv))

/-- C10: for a 2D array whose entries are all equal, with vmin/vmax/vmid left
to their defaults, the computed z is the degenerate 0/0 division and fails
the range check, so all three wrappers fail with InvalidArgument before any
rendering happens. -/
theorem C10_constant_data (X : List (List ℝ)) (cmap : ℝ → RGBA) (beta : ℝ)
    (N : ℕ) (c : ℝ) (hne : flatten2d X ≠ [])
    (hconst : ∀ v ∈ flatten2d X, v = c) :
    wimshow X cmap none none none beta N =
      Except.error (PyError.InvalidArgument "z must be between 0 and 1") ∧
    wpcolormesh X cmap none none none beta N =
      Except.error (PyError.InvalidArgument "z must be between 0 and 1") ∧
    wpcolor X cmap none none none beta N =
      Except.error (PyError.InvalidArgument "z must be between 0 and 1") := by
  have hmin : npMin (flatten2d X) = c := npMin_const c _ hne hconst
  have hmax : npMax (flatten2d X) = c := npMax_const c _ hne hconst
  have hz : ((npMin (flatten2d X) + npMax (flatten2d X)) / 2 -
      npMin (flatten2d X)) /
      (npMax (flatten2d X) - npMin (flatten2d X)) = 0 := by
    rw [hmin, hmax]
    have h1 : (c + c) / 2 - c = 0 := by ring
    rw [h1, zero_div]
  have herr : warp_colormap cmap 0 beta N =
      Except.error (PyError.InvalidArgument "z must be between 0 and 1") := by
    unfold warp_colormap
    rw [if_neg (by norm_num)]
  refine ⟨?_, ?_, ?_⟩
  · simp only [wimshow, Option.getD_none]
    rw [hz]
    exact herr
  · simp only [wpcolormesh, Option.getD_none]
    rw [hz]
    exact herr
  · simp only [wpcolor, Option.getD_none]
    rw [hz]
    exact herr

/-- Witness for C10 on the constant array [[5, 5], [5, 5]]. -/
theorem C10_constant_data_witness :
    wimshow [[5, 5], [5, 5]] grayMap none none none 1 256 =
      Except.error (PyError.InvalidArgument "z must be between 0 and 1") ∧
    wpcolormesh [[5, 5], [5, 5]] grayMap none none none 1 256 =
      Except.error (PyError.InvalidArgument "z must be between 0 and 1") ∧
    wpcolor [[5, 5], [5, 5]] grayMap none none none 1 256 =
      Except.error (PyError.InvalidArgument "z must be between 0 and 1") :=
  C10_constant_data [[5, 5], [5, 5]] grayMap 1 256 5 (by simp [flatten2d])
    (by intro v hv; simp [flatten2d] at hv; exact hv)

end Warpcmap

end
